import Mathlib

/-!
Verification development for the iflow-sdk-bridge session manager
(`src/client.ts`).  The stateful `IFlowSDKClient` is shallowly embedded as a
state-passing model: each JS method becomes a Lean function from the client
state (plus the values the environment supplies at run time: clock readings,
sampled random delays) to the next state.  Machine integers are `Nat`
(all quantities in the source are non-negative millisecond clock values and
counters, far below any overflow boundary).
-/

namespace IFlowBridge

/-- State of `IFlowSDKClient` (src/client.ts lines 77-96), restricted to the
fields the pacing/rotation logic reads or writes:
`connected` models `this.client !== null && this.client.isConnected()`,
`lastRequestTime`, `requestCount`, `sessionCreateTime`, `sessionIdCounter`
and `requestTimestamps` are the fields of the same names.
`time` is the model's clock threading: the last value returned by
`Date.now()` (clock readings are monotone).  `dispatchLog` is bookkeeping
for specification purposes only: every timestamp ever pushed onto
`requestTimestamps` (line 203), never pruned, so that properties about the
full history of recorded dispatches can be stated even after old entries
are pruned from the stored ledger. -/
structure PacingState where
  connected : Bool
  lastRequestTime : Nat
  requestCount : Nat
  sessionCreateTime : Nat
  sessionIdCounter : Nat
  requestTimestamps : List Nat
  dispatchLog : List Nat
  time : Nat
deriving Repr, DecidableEq

/-- The values the environment provides during one `chat`/`chatStream` call:
`d0` elapsed real time between the end of the previous call and the
`Date.now()` at line 180; `d1` extra real time consumed beyond the requested
sleeps before `Date.now()` at line 202 (`sleep` waits at least the requested
duration); `d2` elapsed time before `Date.now()` at line 215; `d3` elapsed
time before `Date.now()` at line 157 inside `connect`; `jitter` the sampled
`randomDelay(1000, 5000)` of line 188; `target` the sampled
`randomDelay(MIN_REQUEST_INTERVAL, MAX_REQUEST_INTERVAL)` of line 195;
`cooldown` the sampled `randomDelay(2000, 5000)` of line 224. -/
structure CallEnv where
  d0 : Nat
  d1 : Nat
  d2 : Nat
  d3 : Nat
  jitter : Nat
  target : Nat
  cooldown : Nat
deriving Repr, DecidableEq

/-- Line 183: `this.requestTimestamps.filter(t => now - t < 60000)`. -/
def pruneLedger (ts : List Nat) (now : Nat) : List Nat :=
  ts.filter (fun t => decide (now - t < 60000))

/-- Lines 186-191: the wait imposed when the per-minute ceiling (25) is
reached, `60000 - (now - oldestInWindow) + randomDelay(1000, 5000)`;
zero otherwise. -/
def rateLimitWait (ts : List Nat) (now jitter : Nat) : Nat :=
  if 25 ≤ ts.length then 60000 - (now - ts.headD 0) + jitter else 0

/-- Lines 194-199: the additional wait bringing the elapsed time since the
previous dispatch up to the sampled random target interval; zero when the
elapsed time already reaches the target. -/
def minIntervalWait (now last target : Nat) : Nat :=
  if now - last < target then target - (now - last) else 0

/-- The `Date.now()` reading of line 180. -/
def nowOf (st : PacingState) (e : CallEnv) : Nat := st.time + e.d0

/-- The ledger after the line-183 prune. -/
def prunedOf (st : PacingState) (e : CallEnv) : List Nat :=
  pruneLedger st.requestTimestamps (nowOf st e)

/-- The rate-limit wait of this call. -/
def w1Of (st : PacingState) (e : CallEnv) : Nat :=
  rateLimitWait (prunedOf st e) (nowOf st e) e.jitter

/-- The minimum-interval wait of this call (note the source compares against
the `now` captured at line 180, before the rate-limit sleep). -/
def w2Of (st : PacingState) (e : CallEnv) : Nat :=
  minIntervalWait (nowOf st e) st.lastRequestTime e.target

/-- The `Date.now()` reading of line 202, recorded as `lastRequestTime` and
pushed onto the ledger: at least `now` plus both requested sleeps. -/
def recordTimeOf (st : PacingState) (e : CallEnv) : Nat :=
  nowOf st e + w1Of st e + w2Of st e + e.d1

/-- `checkRateLimit` (lines 179-208, without the trailing
`checkSessionRotation` call, embedded separately): prune the ledger, sleep
the rate-limit wait and the minimum-interval wait, then record the dispatch
(`lastRequestTime`, ledger push, `requestCount++`). -/
def checkRateLimit (st : PacingState) (e : CallEnv) : PacingState :=
  { st with
    requestTimestamps := prunedOf st e ++ [recordTimeOf st e]
    dispatchLog := st.dispatchLog ++ [recordTimeOf st e]
    lastRequestTime := recordTimeOf st e
    requestCount := st.requestCount + 1
    time := recordTimeOf st e }

/-- `checkSessionRotation` (lines 214-226): rotation fires when the lifetime
`requestCount` has reached `MAX_REQUESTS_PER_SESSION = 50`, or the session
is older than `MAX_SESSION_AGE_MS = 30 * 60 * 1000`; `this.sessionCreateTime &&`
is JS truthiness, i.e. the age test is skipped while `sessionCreateTime = 0`.
When rotation fires and the client is connected, `disconnect()` runs and a
random 2000-5000 ms cooldown is slept. -/
def checkSessionRotation (st : PacingState) (e : CallEnv) : PacingState :=
  let now := st.time + e.d2
  if (50 ≤ st.requestCount ∨
      (st.sessionCreateTime ≠ 0 ∧ 1800000 < now - st.sessionCreateTime)) ∧
     st.connected then
    { st with connected := false, time := now + e.cooldown }
  else
    { st with time := now }

/-- The effect of `ensureConnected` (lines 111-127) for a single sequential
caller: a no-op when connected, otherwise `connect` (lines 129-161), which
establishes the connection, stamps `sessionCreateTime` with `Date.now()`
(line 157) and increments `sessionIdCounter` (line 158). -/
def ensureConnectedStep (st : PacingState) (e : CallEnv) : PacingState :=
  if st.connected then st
  else
    let connTime := st.time + e.d3
    { st with
      connected := true
      sessionCreateTime := connTime
      sessionIdCounter := st.sessionIdCounter + 1
      time := connTime }

/-- The state bookkeeping of one `chat`/`chatStream` call (lines 287-291 /
341-345): `checkRateLimit` (which ends by calling `checkSessionRotation`),
then `ensureConnected`. -/
def chatCall (st : PacingState) (e : CallEnv) : PacingState :=
  ensureConnectedStep (checkSessionRotation (checkRateLimit st e) e) e

/-- A freshly constructed client (field initializers, lines 78-96), with the
model clock started at `t0`. -/
def initialState (t0 : Nat) : PacingState :=
  { connected := false
    lastRequestTime := 0
    requestCount := 0
    sessionCreateTime := 0
    sessionIdCounter := 0
    requestTimestamps := []
    dispatchLog := []
    time := t0 }

/-- A sequence of `chat`/`chatStream` calls from a fresh client. -/
def runCalls (t0 : Nat) (envs : List CallEnv) : PacingState :=
  envs.foldl chatCall (initialState t0)

/-- Return shape of `getStats` (lines 257-262). -/
structure Stats where
  totalRequests : Nat
  recentRequests : Nat
  sessionCount : Nat
  sessionAgeSec : Nat
deriving Repr, DecidableEq

/-- `getStats` (lines 257-271): counts the ledger entries younger than
60 s through a fresh `filter` (which builds a new array; the stored
`requestTimestamps` is not reassigned), and derives the remaining fields
read-only; the state after the call is the state before it.
`this.sessionCreateTime ? ... : 0` is JS truthiness on the number. -/
def getStats (st : PacingState) (now : Nat) : Stats × PacingState :=
  let recentCount := (st.requestTimestamps.filter (fun t => decide (now - t < 60000))).length
  (⟨st.requestCount, recentCount, st.sessionIdCounter,
    if st.sessionCreateTime ≠ 0 then (now - st.sessionCreateTime) / 1000 else 0⟩,
   st)

/-- Message roles (the union type of `ChatCompletionOptions.messages[].role`,
lines 6-9). -/
inductive Role where
  | system
  | user
  | assistant
deriving Repr, DecidableEq, BEq

/-- One element of a multi-part message content
(`{ type: string; text?: string; image_url?: { url: string } }`, line 8). -/
structure ContentPart where
  type : String
  text : Option String
  image_url : Option String
deriving Repr, DecidableEq, BEq

/-- Message content: a plain string or a list of typed parts (line 8). -/
inductive MsgContent where
  | str : String → MsgContent
  | parts : List ContentPart → MsgContent
deriving Repr, DecidableEq, BEq

/-- One chat message (lines 6-9). -/
structure ChatMessage where
  role : Role
  content : MsgContent
deriving Repr, DecidableEq, BEq

/-- The multi-part flattening of lines 417-420 (also duplicated at lines
439-442): `content.filter(item => item.type === 'text' && item.text)
.map(item => item.text).join('\n')`.  `item.text` is JS truthiness: the
part is kept only when `text` is present and non-empty. -/
def flattenParts (ps : List ContentPart) : String :=
  String.intercalate "\n"
    ((ps.filter (fun p => p.type == "text" && !(p.text.getD "").isEmpty)).map
      (fun p => p.text.getD ""))

/-- Text extraction from a message content (lines 413-421 / 436-443). -/
def extractText (c : MsgContent) : String :=
  match c with
  | .str s => s
  | .parts ps => flattenParts ps

/-- The tagged line each message contributes to the fallback reconstruction
(lines 423-429). -/
def taggedLine (msg : ChatMessage) : String :=
  match msg.role with
  | .system => "[System]: " ++ extractText msg.content
  | .user => extractText msg.content
  | .assistant => "[Assistant]: " ++ extractText msg.content

/-- `buildPrompt` (lines 408-446): build the tagged lines for every message,
then return the text of the last message with role `user`
(`[...messages].reverse().find(m => m.role === 'user')`, line 434) when one
exists, and otherwise the tagged lines joined with a blank line
(`parts.join('\n\n')`, line 445). -/
def buildPrompt (messages : List ChatMessage) : String :=
  let parts := messages.map taggedLine
  match messages.reverse.find? (fun m => m.role == Role.user) with
  | some m => extractText m.content
  | none => String.intercalate "\n\n" parts

/-- `MODEL_ALIASES` (lines 65-75). -/
def MODEL_ALIASES : List (String × String) :=
  [("claude-opus-4-6", "glm-5"),
   ("claude-opus-4", "glm-5"),
   ("claude-sonnet-4-6", "glm-5"),
   ("claude-sonnet-4", "glm-5"),
   ("claude-haiku-4-5", "glm-5"),
   ("claude-haiku-4", "glm-5"),
   ("opus-4", "glm-5"),
   ("sonnet-4", "glm-5"),
   ("haiku-4", "glm-5")]

/-- `MODEL_ALIASES[model] || model` (lines 172, 294, 348): the aliased name
when the table has a truthy (non-empty) entry, the caller's name
otherwise. -/
def resolveAlias (model : String) : String :=
  match MODEL_ALIASES.lookup model with
  | some v => if v.isEmpty then model else v
  | none => model

/-- Request options (lines 4-13), restricted to the fields `chat` and
`chatStream` read. -/
structure ChatCompletionOptions where
  model : String
  messages : List ChatMessage
deriving Repr, DecidableEq, BEq

/-- One backend event yielded by `client.receiveMessages()`: an assistant
message carrying an optional incremental `chunk.text` and optional
`chunk.thought`, a task-completion event, or any other message type. -/
inductive BackendMessage where
  | assistantMsg : Option String → Option String → BackendMessage
  | taskFinish : BackendMessage
  | otherMsg : BackendMessage
deriving Repr, DecidableEq, BEq

/-- `delta` of a stream chunk choice (lines 42-45). -/
structure ChunkDelta where
  role : Option String
  content : Option String
deriving Repr, DecidableEq, BEq

/-- One choice of a stream chunk (lines 40-47). -/
structure ChunkChoice where
  index : Nat
  delta : ChunkDelta
  finish_reason : Option String
deriving Repr, DecidableEq, BEq

/-- `StreamChunk` (lines 35-48). -/
structure StreamChunk where
  id : String
  object : String
  created : Nat
  model : String
  choices : List ChunkChoice
deriving Repr, DecidableEq, BEq

/-- The receive loop of `chatStream` (lines 374-405): each assistant event
with a truthy (present, non-empty) `chunk.text` yields a content-delta
chunk; the first task-completion event yields the terminal chunk with
`finish_reason: 'stop'` and breaks; other events are skipped. -/
def streamChunksFrom (chatId : String) (created : Nat) (model : String) :
    List BackendMessage → List StreamChunk
  | [] => []
  | BackendMessage.assistantMsg t _ :: rest =>
      if (t.getD "").isEmpty then
        streamChunksFrom chatId created model rest
      else
        { id := chatId, object := "chat.completion.chunk", created := created,
          model := model,
          choices := [⟨0, ⟨none, some (t.getD "")⟩, none⟩] } ::
          streamChunksFrom chatId created model rest
  | BackendMessage.taskFinish :: _ =>
      [{ id := chatId, object := "chat.completion.chunk", created := created,
         model := model,
         choices := [⟨0, ⟨none, none⟩, some "stop"⟩] }]
  | BackendMessage.otherMsg :: rest => streamChunksFrom chatId created model rest

/-- `chatStream` (lines 341-406), after the pacing/connection steps (embedded
separately as `chatCall`): the model sent to `config.set('model', ...)` is
the alias-resolved one (line 348), the prompt is built from the messages,
then a role-announcement chunk is yielded followed by the receive loop;
every chunk carries `options.model` verbatim.  Returns the configured model
together with the yielded chunk sequence. -/
def chatStreamRun (options : ChatCompletionOptions) (chatId : String)
    (created : Nat) (backendMsgs : List BackendMessage) :
    String × List StreamChunk :=
  let model := resolveAlias options.model
  let _prompt := buildPrompt options.messages
  (model,
   { id := chatId, object := "chat.completion.chunk", created := created,
     model := options.model,
     choices := [⟨0, ⟨some "assistant", none⟩, none⟩] } ::
     streamChunksFrom chatId created options.model backendMsgs)

/-- The accumulation loop of `chat` (lines 304-318): concatenate the truthy
`chunk.text` of each assistant event, stopping at the first task-completion
event. -/
def collectResponse : List BackendMessage → String
  | [] => ""
  | BackendMessage.assistantMsg t _ :: rest =>
      if (t.getD "").isEmpty then collectResponse rest
      else (t.getD "") ++ collectResponse rest
  | BackendMessage.taskFinish :: _ => ""
  | BackendMessage.otherMsg :: rest => collectResponse rest

/-- `message` of a response choice (lines 22-25). -/
structure RespMessage where
  role : String
  content : String
deriving Repr, DecidableEq, BEq

/-- One choice of a chat response (lines 20-27). -/
structure RespChoice where
  index : Nat
  message : RespMessage
  finish_reason : String
deriving Repr, DecidableEq, BEq

/-- `usage` of a chat response (lines 28-32). -/
structure Usage where
  prompt_tokens : Nat
  completion_tokens : Nat
  total_tokens : Nat
deriving Repr, DecidableEq, BEq

/-- `ChatCompletionResponse` (lines 15-33). -/
structure ChatCompletionResponse where
  id : String
  object : String
  created : Nat
  model : String
  choices : List RespChoice
  usage : Usage
deriving Repr, DecidableEq, BEq

/-- `chat` (lines 287-339), after the pacing/connection steps (embedded
separately as `chatCall`): configure the alias-resolved model (line 294),
build the prompt, send it, accumulate the response text, and return the
OpenAI-shaped response whose `model` field is `options.model` verbatim
(line 324) and whose `created` is `Math.floor(Date.now() / 1000)`.
Returns the configured model together with the response. -/
def chatRun (options : ChatCompletionOptions) (genId : String) (nowMs : Nat)
    (backendMsgs : List BackendMessage) : String × ChatCompletionResponse :=
  let model := resolveAlias options.model
  let _prompt := buildPrompt options.messages
  let fullResponse := collectResponse backendMsgs
  (model,
   { id := genId, object := "chat.completion", created := nowMs / 1000,
     model := options.model,
     choices := [⟨0, ⟨"assistant", fullResponse⟩, "stop"⟩],
     usage := ⟨0, 0, 0⟩ })

/-- Observable phase of one caller of `ensureConnected`: not yet invoked,
awaiting the in-flight connect promise, or returned (with `none` for success
or `some e` for the propagated error). -/
inductive CallerPhase where
  | idle
  | waiting
  | dn (outcome : Option Nat)
deriving Repr, DecidableEq

/-- Event-loop model of the connect path (lines 78-79, 111-161).  JS runs each
caller's synchronous prologue of `ensureConnected` atomically up to the first
suspension point: the prologue checks `this.client?.isConnected()`, then the
shared in-flight marker `this.connecting`, and only when both are absent
constructs a new connect attempt (`this.connecting = this.connect()`), which
is the only place an underlying connection attempt starts.  `attempts`
counts those constructions; `clientConnected` models
`this.client?.isConnected() === true`; `connecting` models
`this.connecting !== null`; `callers` gives each caller's phase. -/
@[ext]
structure ConnState where
  clientConnected : Bool
  connecting : Bool
  attempts : Nat
  callers : Nat → CallerPhase

/-- Caller `i` runs the synchronous prologue of `ensureConnected`
(lines 111-121): return immediately when connected (line 112-114), join the
in-flight attempt when one exists (lines 117-119), otherwise start a new
attempt and await it (line 121).  Invoking a non-idle caller is a no-op. -/
def invokeStep (s : ConnState) (i : Nat) : ConnState :=
  if s.callers i = CallerPhase.idle then
    if s.clientConnected then
      { s with callers := fun j => if j = i then CallerPhase.dn none else s.callers j }
    else if s.connecting then
      { s with callers := fun j => if j = i then CallerPhase.waiting else s.callers j }
    else
      { s with
        connecting := true
        attempts := s.attempts + 1
        callers := fun j => if j = i then CallerPhase.waiting else s.callers j }
  else s

/-- The in-flight connect attempt resolves with `outcome` (`none` = success,
`some e` = the error `e` thrown by `connect`): on success the client is
connected (line 151), on failure it stays disconnected; the `finally` of
line 124-126 clears the in-flight marker, and every caller awaiting the
shared promise resumes with that same outcome. -/
def resolveStep (s : ConnState) (outcome : Option Nat) : ConnState :=
  if s.connecting then
    { s with
      clientConnected := outcome.isNone
      connecting := false
      callers := fun j =>
        if s.callers j = CallerPhase.waiting then CallerPhase.dn outcome
        else s.callers j }
  else s

/-- The state with the callers listed in `inv` having invoked
`ensureConnected` while disconnected, and nobody else. -/
def invokedState (inv : List Nat) : ConnState :=
  { clientConnected := false
    connecting := !inv.isEmpty
    attempts := if inv.isEmpty then 0 else 1
    callers := fun j => if j ∈ inv then CallerPhase.waiting else CallerPhase.idle }

/-- A fresh, disconnected client with no caller active (lines 78-79). -/
def initConn : ConnState := invokedState []

/-- Number of entries of `ts` inside the 60-second sliding window ending at
time `T` (an entry `t` is in the window when `t ≤ T` and `T - t < 60000`,
matching the strict `now - t < 60000` freshness test of the source). -/
def windowCount (ts : List Nat) (T : Nat) : Nat :=
  (ts.filter (fun t => decide (t ≤ T ∧ T - t < 60000))).length

/-- No 60-second sliding window over `ts` contains more than 25 entries. -/
def windowBound (ts : List Nat) : Prop := ∀ T : Nat, windowCount ts T ≤ 25

/-- Reachability invariant of the pacing state: ledger and dispatch-log
entries never exceed the current clock, the last-dispatch time never exceeds
the clock, the stored ledger is an ordered sublist of the full dispatch log,
no 60-second window of the full log holds more than 25 dispatches, and
every log entry still fresh at any present-or-future instant also survives
in the stored ledger. -/
structure Inv (st : PacingState) : Prop where
  ledger_le : ∀ t ∈ st.requestTimestamps, t ≤ st.time
  log_le : ∀ t ∈ st.dispatchLog, t ≤ st.time
  last_le : st.lastRequestTime ≤ st.time
  ledger_sub : st.requestTimestamps.Sublist st.dispatchLog
  log_bound : windowBound st.dispatchLog
  bridge : ∀ T : Nat, st.time ≤ T →
    windowCount st.dispatchLog T ≤ windowCount st.requestTimestamps T

/-! ## Helper lemmas -/

/-- Every chunk produced by the receive loop of `chatStream` carries the
model string it was given. -/
theorem streamChunksFrom_model_eq (cid : String) (cr : Nat) (m : String)
    (msgs : List BackendMessage) :
    ((streamChunksFrom cid cr m msgs).all (fun c => c.model == m)) = true := by
  induction msgs with
  | nil => rfl
  | cons h rest ih =>
    cases h with
    | assistantMsg t th =>
      by_cases hE : (t.getD "").isEmpty
      · simpa [streamChunksFrom, hE] using ih
      · simp [streamChunksFrom, hE, List.all_cons, ih]
    | taskFinish => simp [streamChunksFrom, List.all_cons]
    | otherMsg => simpa [streamChunksFrom] using ih

/-- A pointwise-weaker filter keeps at most as many elements. -/
theorem length_filter_le_filter {l : List Nat} {p q : Nat → Bool}
    (h : ∀ x ∈ l, p x = true → q x = true) :
    (l.filter p).length ≤ (l.filter q).length := by
  induction l with
  | nil => simp
  | cons a t ih =>
    have ht : ∀ x ∈ t, p x = true → q x = true :=
      fun x hx => h x (List.mem_cons_of_mem _ hx)
    rw [List.filter_cons, List.filter_cons]
    by_cases hp : p a = true
    · rw [if_pos hp, if_pos (h a (List.mem_cons_self a t) hp)]
      simpa using ih ht
    · rw [if_neg hp]
      by_cases hq : q a = true
      · rw [if_pos hq]
        exact Nat.le_succ_of_le (ih ht)
      · rw [if_neg hq]
        exact ih ht

/-- Window counts add over list concatenation. -/
theorem windowCount_append (l1 l2 : List Nat) (T : Nat) :
    windowCount (l1 ++ l2) T = windowCount l1 T + windowCount l2 T := by
  simp [windowCount, List.filter_append]

/-- Window counts are monotone under sublists. -/
theorem windowCount_sublist {l1 l2 : List Nat} (h : l1.Sublist l2) (T : Nat) :
    windowCount l1 T ≤ windowCount l2 T :=
  (h.filter _).length_le

/-- A window count never exceeds the list length. -/
theorem windowCount_le_length (l : List Nat) (T : Nat) :
    windowCount l T ≤ l.length :=
  List.length_filter_le _ l

/-- Pruning at an instant `now` not later than the window end `T` does not
change the count of the window ending at `T`: every entry inside that
window is still fresh at `now`. -/
theorem windowCount_pruneLedger (l : List Nat) (now T : Nat) (hnow : now ≤ T) :
    windowCount (pruneLedger l now) T = windowCount l T := by
  unfold windowCount pruneLedger
  rw [List.filter_filter]
  refine congrArg List.length (List.filter_congr ?_)
  intro a _
  by_cases hT : a ≤ T ∧ T - a < 60000
  · have h1 : now - a < 60000 :=
      Nat.lt_of_le_of_lt (Nat.sub_le_sub_right hnow a) hT.2
    simp [hT, h1]
  · simp [hT]

/-- A sliding window over a list of entries all bounded by `b` counts at
most as many entries as the window ending at `b` itself when the window
end lies at or beyond `b`. -/
theorem windowCount_mono_of_le {l : List Nat} {b T : Nat}
    (hle : ∀ t ∈ l, t ≤ b) (hT : b ≤ T) :
    windowCount l T ≤ windowCount l b := by
  refine length_filter_le_filter ?_
  intro x hx hpx
  have hx1 : x ≤ T ∧ T - x < 60000 := of_decide_eq_true hpx
  have hxb : x ≤ b := hle x hx
  have : b - x < 60000 := Nat.lt_of_le_of_lt (Nat.sub_le_sub_right hT x) hx1.2
  exact decide_eq_true ⟨hxb, this⟩

/-- Under the invariant, the freshly pruned ledger holds at most 25
entries: it counts exactly the window of the full dispatch log ending at
the current instant. -/
theorem prunedOf_length_le_25 (st : PacingState) (e : CallEnv)
    (hInv : Inv st) : (prunedOf st e).length ≤ 25 := by
  have hcong : prunedOf st e = st.requestTimestamps.filter
      (fun t => decide (t ≤ nowOf st e ∧ nowOf st e - t < 60000)) := by
    unfold prunedOf pruneLedger
    refine List.filter_congr ?_
    intro t ht
    have h1 : t ≤ nowOf st e :=
      le_trans (hInv.ledger_le t ht) (Nat.le_add_right _ _)
    rw [decide_eq_decide]
    exact ⟨fun h => ⟨h1, h⟩, fun h => h.2⟩
  calc (prunedOf st e).length
      = windowCount st.requestTimestamps (nowOf st e) := by
        rw [hcong]; rfl
    _ ≤ windowCount st.dispatchLog (nowOf st e) :=
        windowCount_sublist hInv.ledger_sub _
    _ ≤ 25 := hInv.log_bound _

/-- When the per-minute ceiling branch fires, the recorded dispatch time
exceeds the window's oldest entry by the full 60-second window plus the
sampled jitter. -/
theorem headD_record_bound (st : PacingState) (e : CallEnv)
    (hled : ∀ t ∈ st.requestTimestamps, t ≤ st.time)
    (h25 : 25 ≤ (prunedOf st e).length) :
    (prunedOf st e).headD 0 + 60000 + e.jitter ≤ recordTimeOf st e := by
  have hne : prunedOf st e ≠ [] := by
    intro h
    rw [h] at h25
    simp at h25
  have hmem : (prunedOf st e).headD 0 ∈ prunedOf st e := by
    cases hp : prunedOf st e with
    | nil => exact absurd hp hne
    | cons a t => exact List.mem_cons_self a t
  have hpair := List.mem_filter.mp hmem
  have hfresh : nowOf st e - (prunedOf st e).headD 0 < 60000 :=
    of_decide_eq_true hpair.2
  have hle : (prunedOf st e).headD 0 ≤ nowOf st e :=
    le_trans (hled _ hpair.1) (Nat.le_add_right _ _)
  unfold recordTimeOf w1Of rateLimitWait
  rw [if_pos h25]
  omega

/-- `checkRateLimit` preserves the pacing invariant: in particular no
60-second window of the dispatch history ever exceeds 25 entries. -/
theorem inv_checkRateLimit (st : PacingState) (e : CallEnv) (hInv : Inv st) :
    Inv (checkRateLimit st e) := by
  have hRdef : recordTimeOf st e =
      nowOf st e + w1Of st e + w2Of st e + e.d1 := rfl
  have hnR : nowOf st e ≤ recordTimeOf st e := by omega
  have htn : st.time ≤ nowOf st e := Nat.le_add_right st.time e.d0
  have htR : st.time ≤ recordTimeOf st e := le_trans htn hnR
  constructor
  · intro t ht
    rcases List.mem_append.mp ht with h | h
    · exact le_trans (hInv.ledger_le t (List.mem_filter.mp h).1) htR
    · rw [List.mem_singleton.mp h]
      exact le_refl _
  · intro t ht
    rcases List.mem_append.mp ht with h | h
    · exact le_trans (hInv.log_le t h) htR
    · rw [List.mem_singleton.mp h]
      exact le_refl _
  · exact le_refl _
  · exact ((List.filter_sublist _).trans hInv.ledger_sub).append
      (List.Sublist.refl [recordTimeOf st e])
  · intro T
    show windowCount (st.dispatchLog ++ [recordTimeOf st e]) T ≤ 25
    rw [windowCount_append]
    by_cases hTw : recordTimeOf st e ≤ T ∧ T - recordTimeOf st e < 60000
    · have hc : windowCount [recordTimeOf st e] T ≤ 1 :=
        windowCount_le_length _ _
      have h1 : windowCount st.dispatchLog T ≤
          windowCount st.dispatchLog (recordTimeOf st e) :=
        windowCount_mono_of_le (fun t ht => le_trans (hInv.log_le t ht) htR)
          hTw.1
      have h2 : windowCount st.dispatchLog (recordTimeOf st e) ≤
          windowCount st.requestTimestamps (recordTimeOf st e) :=
        hInv.bridge _ htR
      have h3 : windowCount st.requestTimestamps (recordTimeOf st e) =
          windowCount (prunedOf st e) (recordTimeOf st e) :=
        (windowCount_pruneLedger st.requestTimestamps (nowOf st e)
          (recordTimeOf st e) hnR).symm
      have h4 : windowCount (prunedOf st e) (recordTimeOf st e) ≤ 24 := by
        by_cases h25 : 25 ≤ (prunedOf st e).length
        · have hrec := headD_record_bound st e hInv.ledger_le h25
          have hlen : (prunedOf st e).length ≤ 25 :=
            prunedOf_length_le_25 st e hInv
          cases hp : prunedOf st e with
          | nil =>
            rw [hp] at h25
            simp at h25
          | cons o rest =>
            rw [hp] at hlen
            have hoD : (prunedOf st e).headD 0 = o := by
              rw [hp]
              rfl
            rw [hoD] at hrec
            unfold windowCount
            rw [List.filter_cons,
              if_neg (by simp only [decide_eq_true_eq]; omega)]
            calc (rest.filter _).length ≤ rest.length :=
                List.length_filter_le _ _
              _ ≤ 24 := by simpa using hlen
        · have hsmall : (prunedOf st e).length ≤ 24 := by omega
          exact le_trans (windowCount_le_length _ _) hsmall
      omega
    · have hc : windowCount [recordTimeOf st e] T = 0 := by
        simp [windowCount, hTw]
      have := hInv.log_bound T
      omega
  · intro T hT
    show windowCount (st.dispatchLog ++ [recordTimeOf st e]) T ≤
      windowCount (prunedOf st e ++ [recordTimeOf st e]) T
    have hT' : recordTimeOf st e ≤ T := hT
    rw [windowCount_append, windowCount_append]
    have h1 : windowCount st.dispatchLog T ≤
        windowCount st.requestTimestamps T :=
      hInv.bridge T (le_trans htR hT')
    have h2 : windowCount st.requestTimestamps T =
        windowCount (prunedOf st e) T :=
      (windowCount_pruneLedger st.requestTimestamps (nowOf st e) T
        (le_trans hnR hT')).symm
    omega

/-- The invariant transfers to any state that keeps the ledger, log and
last-dispatch time while only advancing the clock. -/
theorem inv_of_eq_fields {st st' : PacingState} (hInv : Inv st)
    (hl : st'.requestTimestamps = st.requestTimestamps)
    (hg : st'.dispatchLog = st.dispatchLog)
    (hr : st'.lastRequestTime = st.lastRequestTime)
    (ht : st.time ≤ st'.time) : Inv st' := by
  constructor
  · rw [hl]
    exact fun t h => le_trans (hInv.ledger_le t h) ht
  · rw [hg]
    exact fun t h => le_trans (hInv.log_le t h) ht
  · rw [hr]
    exact le_trans hInv.last_le ht
  · rw [hl, hg]
    exact hInv.ledger_sub
  · rw [hg]
    exact hInv.log_bound
  · intro T hT
    rw [hl, hg]
    exact hInv.bridge T (le_trans ht hT)

/-- The rotation check only toggles connectivity and advances the clock. -/
theorem inv_checkSessionRotation (st : PacingState) (e : CallEnv)
    (hInv : Inv st) : Inv (checkSessionRotation st e) := by
  refine inv_of_eq_fields hInv ?_ ?_ ?_ ?_ <;>
    · simp only [checkSessionRotation]
      split <;> simp <;> omega

/-- The connect step only toggles connectivity, stamps the session fields
and advances the clock. -/
theorem inv_ensureConnectedStep (st : PacingState) (e : CallEnv)
    (hInv : Inv st) : Inv (ensureConnectedStep st e) := by
  refine inv_of_eq_fields hInv ?_ ?_ ?_ ?_ <;>
    · simp only [ensureConnectedStep]
      split <;> simp

/-- One full call preserves the invariant. -/
theorem inv_chatCall (st : PacingState) (e : CallEnv) (hInv : Inv st) :
    Inv (chatCall st e) :=
  inv_ensureConnectedStep _ _ (inv_checkSessionRotation _ _
    (inv_checkRateLimit st e hInv))

/-- A fresh client satisfies the invariant. -/
theorem inv_initialState (t0 : Nat) : Inv (initialState t0) := by
  constructor
  · intro t ht
    exact absurd ht (List.not_mem_nil t)
  · intro t ht
    exact absurd ht (List.not_mem_nil t)
  · exact Nat.zero_le t0
  · exact List.nil_sublist []
  · intro T
    simp [windowCount, initialState]
  · intro T _
    exact le_refl _

/-- Every state reachable by a sequence of calls satisfies the invariant. -/
theorem inv_runCalls (t0 : Nat) (envs : List CallEnv) :
    Inv (runCalls t0 envs) := by
  have hgen : ∀ (es : List CallEnv) (st : PacingState), Inv st →
      Inv (es.foldl chatCall st) := by
    intro es
    induction es with
    | nil => exact fun st h => h
    | cons e rest ih =>
      intro st h
      exact ih (chatCall st e) (inv_chatCall st e h)
  exact hgen envs (initialState t0) (inv_initialState t0)

/-- Two connect-model states with equal fields are equal (pointwise on the
callers map). -/
theorem connState_ext {s t : ConnState}
    (h1 : s.clientConnected = t.clientConnected)
    (h2 : s.connecting = t.connecting) (h3 : s.attempts = t.attempts)
    (h4 : ∀ j, s.callers j = t.callers j) : s = t := by
  cases s
  cases t
  simp only at h1 h2 h3 h4
  subst h1
  subst h2
  subst h3
  have hf := funext h4
  simp only at hf
  rw [hf]

/-- Invoking one more caller from a partially-invoked disconnected state
either starts the unique attempt (first invoke) or joins it. -/
theorem invokeStep_invokedState (inv : List Nat) (i : Nat) :
    invokeStep (invokedState inv) i = invokedState (inv ++ [i]) := by
  by_cases hi : i ∈ inv
  · have hC : (invokedState inv).callers i = CallerPhase.waiting := by
      simp [invokedState, hi]
    have hstep : invokeStep (invokedState inv) i = invokedState inv := by
      unfold invokeStep
      rw [hC]
      simp
    rw [hstep]
    cases inv with
    | nil => exact absurd hi (by simp)
    | cons a l =>
      refine connState_ext rfl rfl rfl ?_
      intro j
      show (if j ∈ a :: l then CallerPhase.waiting else CallerPhase.idle) =
        (if j ∈ (a :: l) ++ [i] then CallerPhase.waiting else CallerPhase.idle)
      by_cases hj : j ∈ a :: l
      · rw [if_pos hj, if_pos (List.mem_append_left _ hj)]
      · have hji : j ≠ i := fun h => hj (h ▸ hi)
        have hj2 : j ∉ (a :: l) ++ [i] := by
          intro hmem
          rcases List.mem_append.mp hmem with h | h
          · exact hj h
          · exact hji (List.mem_singleton.mp h)
        rw [if_neg hj, if_neg hj2]
  · have hC : (invokedState inv).callers i = CallerPhase.idle := by
      simp [invokedState, hi]
    cases inv with
    | nil =>
      have hstep : invokeStep (invokedState []) i =
          { invokedState [] with
            connecting := true
            attempts := 1
            callers := fun j => if j = i then CallerPhase.waiting
                                else (invokedState []).callers j } := by
        unfold invokeStep
        rw [hC]
        simp [invokedState]
      rw [hstep]
      refine connState_ext rfl rfl rfl ?_
      intro j
      show (if j = i then CallerPhase.waiting else (invokedState []).callers j) =
        (if j ∈ ([] : List Nat) ++ [i] then CallerPhase.waiting else CallerPhase.idle)
      by_cases hj : j = i
      · rw [if_pos hj, if_pos (by simp [hj])]
      · rw [if_neg hj, if_neg (by simp [hj])]
        simp [invokedState]
    | cons a l =>
      have hstep : invokeStep (invokedState (a :: l)) i =
          { invokedState (a :: l) with
            callers := fun j => if j = i then CallerPhase.waiting
                                else (invokedState (a :: l)).callers j } := by
        unfold invokeStep
        rw [hC]
        simp [invokedState]
      rw [hstep]
      refine connState_ext rfl rfl rfl ?_
      intro j
      show (if j = i then CallerPhase.waiting else (invokedState (a :: l)).callers j) =
        (if j ∈ (a :: l) ++ [i] then CallerPhase.waiting else CallerPhase.idle)
      by_cases hji : j = i
      · rw [if_pos hji, if_pos (List.mem_append_right _ (by simp [hji]))]
      · rw [if_neg hji]
        show (if j ∈ a :: l then CallerPhase.waiting else CallerPhase.idle) = _
        by_cases hj : j ∈ a :: l
        · rw [if_pos hj, if_pos (List.mem_append_left _ hj)]
        · have hj2 : j ∉ (a :: l) ++ [i] := by
            intro hmem
            rcases List.mem_append.mp hmem with h | h
            · exact hj h
            · exact hji (List.mem_singleton.mp h)
          rw [if_neg hj, if_neg hj2]

/-- Folding any invocation order over a partially-invoked state invokes
exactly the listed callers. -/
theorem foldl_invokeStep (order : List Nat) :
    ∀ inv : List Nat,
      order.foldl invokeStep (invokedState inv) = invokedState (inv ++ order) := by
  induction order with
  | nil => intro inv; simp
  | cons i rest ih =>
    intro inv
    have h1 : (i :: rest).foldl invokeStep (invokedState inv) =
        rest.foldl invokeStep (invokedState (inv ++ [i])) := by
      rw [List.foldl_cons, invokeStep_invokedState]
    rw [h1, ih (inv ++ [i]), ← List.append_cons]

/-! ## Claim theorems -/

/-- C9: `getStats` never mutates the pacing state: the state after the call
is the state before it, field by field (lifetime request count, timestamp
ledger, session counter, session creation time, last-dispatch time), and a
repeated call with no intervening chat call returns the identical result. -/
theorem getStats_preserves_state (st : PacingState) (now : Nat) :
    (getStats st now).2 = st ∧
    (getStats st now).2.requestCount = st.requestCount ∧
    (getStats st now).2.requestTimestamps = st.requestTimestamps ∧
    (getStats st now).2.sessionIdCounter = st.sessionIdCounter ∧
    (getStats st now).2.sessionCreateTime = st.sessionCreateTime ∧
    (getStats st now).2.lastRequestTime = st.lastRequestTime ∧
    ∀ n2 : Nat, getStats (getStats st now).2 n2 = getStats st n2 :=
  ⟨rfl, rfl, rfl, rfl, rfl, rfl, fun _ => rfl⟩

/-- C8: on the backend stream consisting of incremental texts `"He"`, `"llo"`
and then a task-completion event, `chatStream` yields exactly the
role-announcement chunk, the two content-delta chunks with texts `"He"` and
`"llo"`, and the terminal chunk with `finish_reason = "stop"`, in that exact
order, ending at the completion event. -/
theorem chatStream_chunk_sequence (options : ChatCompletionOptions)
    (cid : String) (created : Nat) :
    (chatStreamRun options cid created
      [BackendMessage.assistantMsg (some "He") none,
       BackendMessage.assistantMsg (some "llo") none,
       BackendMessage.taskFinish]).2 =
    [⟨cid, "chat.completion.chunk", created, options.model,
       [⟨0, ⟨some "assistant", none⟩, none⟩]⟩,
     ⟨cid, "chat.completion.chunk", created, options.model,
       [⟨0, ⟨none, some "He"⟩, none⟩]⟩,
     ⟨cid, "chat.completion.chunk", created, options.model,
       [⟨0, ⟨none, some "llo"⟩, none⟩]⟩,
     ⟨cid, "chat.completion.chunk", created, options.model,
       [⟨0, ⟨none, none⟩, some "stop"⟩]⟩] := by
  rfl

/-- C10: the `model` field echoed in the chat response and in every stream
chunk is the caller-supplied identifier unchanged, while the model sent to
the backend's configure call is the alias-resolved one; in particular
`"claude-opus-4"` resolves to the different identifier `"glm-5"`. -/
theorem model_echo_unchanged (options : ChatCompletionOptions) (gid : String)
    (nowMs : Nat) (cid : String) (created : Nat)
    (msgs : List BackendMessage) :
    (chatRun options gid nowMs msgs).2.model = options.model ∧
    (chatRun options gid nowMs msgs).1 = resolveAlias options.model ∧
    (chatStreamRun options cid created msgs).1 = resolveAlias options.model ∧
    ((chatStreamRun options cid created msgs).2.all
      (fun c => c.model == options.model)) = true ∧
    resolveAlias "claude-opus-4" = "glm-5" ∧
    resolveAlias "claude-opus-4" ≠ "claude-opus-4" := by
  refine ⟨rfl, rfl, rfl, ?_, by decide, by decide⟩
  simp only [chatStreamRun, List.all_cons, Bool.and_eq_true, beq_self_eq_true,
    true_and]
  exact streamChunksFrom_model_eq cid created options.model msgs

/-- C4 counterexample: on the two-message input
`[{role:"user",content:"hi"}, {role:"assistant",content:"hello"}]` the built
prompt is exactly `"hi"` — the construction does not fall back to the
multi-line reconstruction (which would be `"hi\n\n[Assistant]: hello"`),
because the fallback requires that no user message exist anywhere, and the
two-character result cannot contain the assistant text `"hello"`. -/
theorem trailing_assistant_no_fallback_cex :
    buildPrompt [⟨Role.user, MsgContent.str "hi"⟩,
                 ⟨Role.assistant, MsgContent.str "hello"⟩] = "hi" ∧
    buildPrompt [⟨Role.user, MsgContent.str "hi"⟩,
                 ⟨Role.assistant, MsgContent.str "hello"⟩] ≠
      "hi\n\n[Assistant]: hello" ∧
    (buildPrompt [⟨Role.user, MsgContent.str "hi"⟩,
                  ⟨Role.assistant, MsgContent.str "hello"⟩]).length < 5 := by
  refine ⟨rfl, by decide, by decide⟩

/-- C4 amended: on `[{role:"user",content:"hi"},
{role:"assistant",content:"hello"}]` prompt construction returns the last
user message's text `"hi"` (the trailing assistant turn is dropped); the
multi-line reconstruction with the visible `[Assistant]:` tag applies only
when no user message exists, e.g. `[{role:"assistant",content:"hello"}]`
builds `"[Assistant]: hello"` and a system/assistant pair builds both
tagged entries joined by a blank line. -/
theorem trailing_assistant_last_user_wins :
    buildPrompt [⟨Role.user, MsgContent.str "hi"⟩,
                 ⟨Role.assistant, MsgContent.str "hello"⟩] = "hi" ∧
    buildPrompt [⟨Role.assistant, MsgContent.str "hello"⟩] =
      "[Assistant]: hello" ∧
    buildPrompt [⟨Role.system, MsgContent.str "be brief"⟩,
                 ⟨Role.assistant, MsgContent.str "hello"⟩] =
      "[System]: be brief\n\n[Assistant]: hello" := by
  refine ⟨rfl, rfl, rfl⟩

set_option maxRecDepth 8192 in
/-- C1 evaluation at the failing input (51 back-to-back calls, all well
inside 30 minutes): the rotation check compares the lifetime `requestCount`,
which is never reset, against `MAX_REQUESTS_PER_SESSION`, so the session
created during call 50 is torn down again on call 51 although it has served
exactly one request and is far younger than 30 minutes — after 49 calls one
session exists, call 50 rotates to session 2, and call 51 immediately
rotates to session 3, the whole run lasting about two minutes. -/
theorem rotation_fires_every_call_after_fifty :
    let e : CallEnv := ⟨100, 0, 0, 0, 1000, 300, 2000⟩
    (runCalls 0 (List.replicate 49 e)).sessionIdCounter = 1 ∧
    (runCalls 0 (List.replicate 49 e)).requestCount = 49 ∧
    (runCalls 0 (List.replicate 50 e)).sessionIdCounter = 2 ∧
    (runCalls 0 (List.replicate 51 e)).sessionIdCounter = 3 ∧
    (runCalls 0 (List.replicate 51 e)).requestCount -
      (runCalls 0 (List.replicate 50 e)).requestCount = 1 ∧
    (runCalls 0 (List.replicate 51 e)).time -
      (runCalls 0 (List.replicate 50 e)).sessionCreateTime < 1800000 := by
  decide

/-- C6 counterexample: after a single call records the dispatch timestamp
1000, a `getStats` read at time 100000 still finds (and leaves behind) the
99-second-old entry in the stored ledger — `getStats` counts through a
fresh filtered copy (reporting 0 recent requests) without pruning the
store, so the stored ledger does contain an entry older than 60 seconds at
the moment of that read. -/
theorem ledger_stale_at_getStats_read_cex :
    let st1 := chatCall (initialState 0) ⟨1000, 0, 0, 0, 1000, 300, 2000⟩
    (getStats st1 100000).2.requestTimestamps = [1000] ∧
    st1.requestTimestamps = [1000] ∧
    (getStats st1 100000).1.recentRequests = 0 ∧
    60000 ≤ 100000 - 1000 := by
  decide

/-- C6 amended: the ledger is pruned in place to the trailing 60-second
window at the start of every rate-limit check, so every entry surviving
that access is younger than 60 seconds at the moment of the read; `getStats`
computes its recent-request count over the same freshly filtered view but
does not prune the stored ledger, which it returns unchanged. -/
theorem ledger_pruned_on_rate_check :
    (∀ (ts : List Nat) (now : Nat),
      ((pruneLedger ts now).all (fun t => decide (now - t < 60000))) = true) ∧
    (∀ (st : PacingState) (e : CallEnv),
      (checkRateLimit st e).requestTimestamps =
        pruneLedger st.requestTimestamps (nowOf st e) ++ [recordTimeOf st e]) ∧
    (∀ (st : PacingState) (now : Nat),
      (getStats st now).1.recentRequests =
        (pruneLedger st.requestTimestamps now).length ∧
      (getStats st now).2 = st) := by
  refine ⟨?_, fun st e => rfl, fun st now => ⟨rfl, rfl⟩⟩
  intro ts now
  simp only [pruneLedger, List.all_eq_true, List.mem_filter]
  intro t ht
  exact ht.2

/-- C7 counterexample: a user message whose multi-part content holds the two
text parts `"a"` and `"b"` builds the prompt `"a\nb"` — the parts are joined
with a newline separator, not concatenated to `"ab"`. -/
theorem multipart_newline_join_cex :
    buildPrompt [⟨Role.user,
      MsgContent.parts [⟨"text", some "a", none⟩, ⟨"text", some "b", none⟩]⟩] =
      "a\nb" ∧
    "a\nb" ≠ "ab" := by
  refine ⟨rfl, by decide⟩

/-- C7 amended: whenever the input contains a user message, the built prompt
is exactly the text of the last message with role `user`, where multi-part
content is flattened by joining its non-empty text parts with newline
separators in order and skipping non-text parts; on the single-message
input with content `"hello"` the prompt is exactly `"hello"`. -/
theorem last_user_prompt_extraction (msgs : List ChatMessage)
    (m : ChatMessage)
    (h : msgs.reverse.find? (fun x => x.role == Role.user) = some m) :
    buildPrompt msgs = extractText m.content ∧
    buildPrompt [⟨Role.user, MsgContent.str "hello"⟩] = "hello" ∧
    flattenParts [⟨"text", some "a", none⟩, ⟨"image_url", none, some "u"⟩,
                  ⟨"text", some "b", none⟩] = "a\nb" := by
  refine ⟨?_, rfl, rfl⟩
  simp [buildPrompt, h]

/-- C7 witness: the amended extraction theorem applied to the concrete
single-user-message input. -/
theorem last_user_prompt_extraction_witness :
    ([⟨Role.user, MsgContent.str "hello"⟩] :
        List ChatMessage).reverse.find? (fun x => x.role == Role.user) =
      some ⟨Role.user, MsgContent.str "hello"⟩ ∧
    buildPrompt [⟨Role.user, MsgContent.str "hello"⟩] =
      extractText (MsgContent.str "hello") :=
  ⟨by decide,
   (last_user_prompt_extraction [⟨Role.user, MsgContent.str "hello"⟩]
      ⟨Role.user, MsgContent.str "hello"⟩ (by decide)).1⟩

/-- C3: when every one of the K callers invokes `ensureConnected` (in any
order, possibly re-entering) while the client is disconnected and before
the connect attempt resolves, exactly one underlying connect attempt is
started and every caller awaits it; when the shared attempt then resolves,
on success the state is connected, on failure it remains disconnected, and
every one of the K callers receives that same outcome. -/
theorem ensureConnected_single_attempt (K : Nat) (order : List Nat)
    (outcome : Option Nat) (hne : order ≠ [])
    (hcov : ∀ j, j < K → j ∈ order) :
    ((order.foldl invokeStep initConn).attempts = 1 ∧
     (order.foldl invokeStep initConn).connecting = true ∧
     (order.foldl invokeStep initConn).clientConnected = false ∧
     (∀ j, j < K →
       (order.foldl invokeStep initConn).callers j = CallerPhase.waiting)) ∧
    ((resolveStep (order.foldl invokeStep initConn) outcome).attempts = 1 ∧
     (resolveStep (order.foldl invokeStep initConn) outcome).connecting = false ∧
     (resolveStep (order.foldl invokeStep initConn) outcome).clientConnected =
       outcome.isNone ∧
     (∀ j, j < K →
       (resolveStep (order.foldl invokeStep initConn) outcome).callers j =
         CallerPhase.dn outcome)) := by
  have hfold : order.foldl invokeStep initConn = invokedState order := by
    have : initConn = invokedState [] := rfl
    rw [this, foldl_invokeStep order [], List.nil_append]
  have hE : order.isEmpty = false := by
    cases order with
    | nil => exact absurd rfl hne
    | cons a l => rfl
  have hcallers : ∀ j, j < K →
      (invokedState order).callers j = CallerPhase.waiting := by
    intro j hj
    simp [invokedState, hcov j hj]
  have hconn : (invokedState order).connecting = true := by
    simp [invokedState, hE]
  refine ⟨⟨?_, ?_, ?_, ?_⟩, ?_, ?_, ?_, ?_⟩
  · rw [hfold]; simp [invokedState, hE]
  · rw [hfold]; exact hconn
  · rw [hfold]; rfl
  · rw [hfold]; exact hcallers
  · rw [hfold]
    unfold resolveStep
    rw [if_pos hconn]
    simp [invokedState, hE]
  · rw [hfold]
    unfold resolveStep
    rw [if_pos hconn]
  · rw [hfold]
    unfold resolveStep
    rw [if_pos hconn]
  · rw [hfold]
    unfold resolveStep
    rw [if_pos hconn]
    intro j hj
    simp only
    rw [if_pos (hcallers j hj)]

/-- C3 witness: three callers invoking in the order 0, 1, 2 (with caller 1
re-entering), then the attempt failing with error 7: one attempt, all three
callers observe the same error, and the client is left disconnected. -/
theorem ensureConnected_single_attempt_witness :
    (([0, 1, 2, 1] : List Nat) ≠ []) ∧
    (∀ j, j < 3 → j ∈ ([0, 1, 2, 1] : List Nat)) ∧
    (([0, 1, 2, 1] : List Nat).foldl invokeStep initConn).attempts = 1 ∧
    (resolveStep (([0, 1, 2, 1] : List Nat).foldl invokeStep initConn)
      (some 7)).clientConnected = false ∧
    (∀ j, j < 3 →
      (resolveStep (([0, 1, 2, 1] : List Nat).foldl invokeStep initConn)
        (some 7)).callers j = CallerPhase.dn (some 7)) := by
  have h := ensureConnected_single_attempt 3 [0, 1, 2, 1] (some 7)
    (by decide) (by decide)
  exact ⟨by decide, by decide, h.1.1, by simpa using h.2.2.2.1, h.2.2.2.2⟩

/-- C2: over every sequence of calls from a fresh client — in particular any
N calls with N above the per-minute ceiling issued inside one minute — the
pacing gate delays dispatches so that no 60-second sliding window of the
recorded dispatch timestamps ever contains more than 25 entries; moreover,
whenever the ceiling branch fires (25 entries survive the prune), the
imposed wait `60000 - (now - oldest)` plus any jitter of at least 1000 ms
puts the recorded dispatch time at least 61000 ms after the window's oldest
entry, so that entry has aged out of the 60-second window before the new
timestamp is recorded. -/
theorem rate_window_never_exceeds_ceiling :
    (∀ (t0 : Nat) (envs : List CallEnv),
      windowBound (runCalls t0 envs).dispatchLog) ∧
    (∀ (st : PacingState) (e : CallEnv),
      (∀ t ∈ st.requestTimestamps, t ≤ st.time) → 1000 ≤ e.jitter →
      25 ≤ (prunedOf st e).length →
      (prunedOf st e).headD 0 + 61000 ≤ recordTimeOf st e) := by
  constructor
  · intro t0 envs
    exact (inv_runCalls t0 envs).log_bound
  · intro st e hled hj h25
    have := headD_record_bound st e hled h25
    omega

/-- C2 witness: a state holding 25 fresh dispatch timestamps with the
minimal jitter of 1000 ms: the ceiling branch fires and the recorded
dispatch lands 61000 ms after the oldest entry. -/
theorem rate_window_never_exceeds_ceiling_witness :
    (∀ t ∈ (⟨true, 0, 25, 5, 1, List.replicate 25 0, List.replicate 25 0, 0⟩ :
        PacingState).requestTimestamps,
      t ≤ (⟨true, 0, 25, 5, 1, List.replicate 25 0, List.replicate 25 0, 0⟩ :
        PacingState).time) ∧
    1000 ≤ (⟨0, 0, 0, 0, 1000, 0, 0⟩ : CallEnv).jitter ∧
    25 ≤ (prunedOf
      ⟨true, 0, 25, 5, 1, List.replicate 25 0, List.replicate 25 0, 0⟩
      ⟨0, 0, 0, 0, 1000, 0, 0⟩).length ∧
    (prunedOf ⟨true, 0, 25, 5, 1, List.replicate 25 0, List.replicate 25 0, 0⟩
        ⟨0, 0, 0, 0, 1000, 0, 0⟩).headD 0 + 61000 ≤
      recordTimeOf
        ⟨true, 0, 25, 5, 1, List.replicate 25 0, List.replicate 25 0, 0⟩
        ⟨0, 0, 0, 0, 1000, 0, 0⟩ :=
  ⟨by decide, by decide, by decide,
   rate_window_never_exceeds_ceiling.2
     ⟨true, 0, 25, 5, 1, List.replicate 25 0, List.replicate 25 0, 0⟩
     ⟨0, 0, 0, 0, 1000, 0, 0⟩ (by decide) (by decide) (by decide)⟩

/-- C5: for every pair of consecutive dispatches the realized inter-dispatch
interval (difference of the recorded last-dispatch timestamps) is at least
the configured 300 ms lower bound of the sampled target (equality allowed),
and when the elapsed time since the previous dispatch already reaches the
sampled random target no additional minimum-interval wait is imposed. -/
theorem min_spacing_lower_bound :
    (∀ (t0 : Nat) (envs : List CallEnv) (e : CallEnv), 300 ≤ e.target →
      (runCalls t0 envs).lastRequestTime + 300 ≤
        (chatCall (runCalls t0 envs) e).lastRequestTime) ∧
    (∀ (st : PacingState) (e : CallEnv),
      e.target ≤ nowOf st e - st.lastRequestTime → w2Of st e = 0) := by
  constructor
  · intro t0 envs e htarget
    have hInv := inv_runCalls t0 envs
    set st := runCalls t0 envs with hst
    have hlastnow : st.lastRequestTime ≤ nowOf st e :=
      le_trans hInv.last_le (Nat.le_add_right _ _)
    have hchat : (chatCall st e).lastRequestTime =
        (checkRateLimit st e).lastRequestTime := by
      unfold chatCall
      simp only [ensureConnectedStep, checkSessionRotation]
      split <;> split <;> rfl
    rw [hchat]
    show st.lastRequestTime + 300 ≤ recordTimeOf st e
    have hR : recordTimeOf st e =
        nowOf st e + w1Of st e + w2Of st e + e.d1 := rfl
    have hw2 : w2Of st e =
        if nowOf st e - st.lastRequestTime < e.target then
          e.target - (nowOf st e - st.lastRequestTime) else 0 := rfl
    by_cases hcase : nowOf st e - st.lastRequestTime < e.target
    · rw [if_pos hcase] at hw2
      omega
    · rw [if_neg hcase] at hw2
      omega
  · intro st e h
    unfold w2Of minIntervalWait
    rw [if_neg (by omega)]

/-- C5 witness: the very first dispatch of a fresh client with sampled
target 300 ms is recorded exactly 300 ms after the (zero-initialized)
previous-dispatch timestamp. -/
theorem min_spacing_lower_bound_witness :
    300 ≤ (⟨0, 0, 0, 0, 1000, 300, 0⟩ : CallEnv).target ∧
    (runCalls 0 []).lastRequestTime + 300 ≤
      (chatCall (runCalls 0 []) ⟨0, 0, 0, 0, 1000, 300, 0⟩).lastRequestTime ∧
    (⟨0, 0, 0, 0, 1000, 300, 0⟩ : CallEnv).target ≤
      nowOf (initialState 5000) ⟨0, 0, 0, 0, 1000, 300, 0⟩ -
        (initialState 5000).lastRequestTime ∧
    w2Of (initialState 5000) ⟨0, 0, 0, 0, 1000, 300, 0⟩ = 0 :=
  ⟨by decide,
   min_spacing_lower_bound.1 0 [] ⟨0, 0, 0, 0, 1000, 300, 0⟩ (by decide),
   by decide,
   min_spacing_lower_bound.2 (initialState 5000) ⟨0, 0, 0, 0, 1000, 300, 0⟩
     (by decide)⟩

end IFlowBridge
